import Mathlib

/-!
Shallow embedding of the BeamSocket connection manager
(src/ws/BeamSocket.ts) as a pure state machine.

The class state becomes the `Socket` structure; each method becomes a
pure function from a `Socket` (plus the explicit inputs the source draws
from the environment: random coin flips, the fresh transport handle, the
inbound frame) to the updated `Socket` together with a trace of observable
outputs (transport sends, transport close and ping requests, emitter
notifications, promise settlements).  Asynchronous continuations of the
source (the unspool chain after the forced auth call, the race of a call
against its timeout timer) are modelled as explicit continuation values
and a small event machine over the registered replies.
-/

namespace BeamClient

/-- Wire-level JSON value carried in packets.  Payload structure beyond
identity is irrelevant to the socket core, so a flat value type suffices. -/
inductive Value where
  | null
  | vbool (b : Bool)
  | vnum (n : Int)
  | vstr (s : String)
deriving DecidableEq, Repr

/-- One wire envelope, the shape parsed in parsePacket:
fields type, id, method, arguments, event, data, error. -/
structure Packet where
  ptype : String := ""
  id : Nat := 0
  method : String := ""
  arguments : List Value := []
  event : String := ""
  data : Value := Value.null
  error : Option Value := none
deriving DecidableEq, Repr

/-- The method name of the authentication packet (constant authMethod). -/
def authMethod : String := "auth"

/-- Recognized options with their defaults from the constructor. -/
structure Options where
  pingInterval : Nat := 15000
  pingTimeout : Nat := 5000
  callTimeout : Nat := 20000
deriving DecidableEq, Repr

/-- The pending action held by the single ping timeout handle:
either a scheduled ping (from resetPingTimeout) or a scheduled
forced close of transport g (from resetConnectionTimeout). -/
inductive PingTimer where
  | pingAfter (ms : Nat)
  | closeWsAfter (ms : Nat) (g : Nat)
deriving DecidableEq, Repr

/-- Modelled from the spec: the error classes imported from ../errors
(TimeoutError, BadMessageError, NoMethodHandlerError,
AuthenticationFailedError) are not under the sources; only the error
kind and message matter to the socket core. -/
inductive ErrKind where
  | timeoutErr
  | badMessage (msg : String)
  | noMethodHandler
  | authFailed
  | transport
deriving DecidableEq, Repr

/-- Emitter notifications produced by the socket. -/
inductive Event where
  | connected
  | closed
  | reconnecting (interval : Nat)
  | sent (p : Packet)
  | spooled (p : Packet)
  | packet (p : Packet)
  | authresult (v : Value)
  | serverEvent (name : String) (d : Value)
  | error (e : ErrKind)
deriving DecidableEq, Repr

/-- Modelled from the spec: the Reply class (src/ws/Reply.ts is not under
the sources) settles the pending promise for a call from the reply
envelope, rejecting with the error field when present and resolving
with the data field otherwise. -/
inductive ReplyOutcome where
  | resolved (v : Value)
  | rejectedWith (e : Value)
deriving DecidableEq, Repr

/-- Observable effects, in the order they occur.  uncaughtThrow marks a
callback that raises before reaching any session field: the wrapper in
boot applies the wrapped handler to the unbound self receiver, so a
function-style handler reads its fields from the wrong object and
throws, leaving the session untouched. -/
inductive Output where
  | transmit (p : Packet)
  | wsClose (g : Nat)
  | wsPing (g : Nat)
  | emit (e : Event)
  | resolveSpooled (p : Packet)
  | settleTimeout (i : Nat)
  | settleReply (i : Nat) (r : ReplyOutcome)
  | uncaughtThrow
deriving DecidableEq, Repr

/-- An inbound transport frame as seen by parsePacket.  JSON.parse is an
external library call, so a text frame is abstracted by its parse
result: binary flagged, unparsable, or parsed to a packet. -/
inductive Frame where
  | binary
  | malformed
  | text (p : Packet)
deriving DecidableEq, Repr

/-- Status constant IDLE. -/
def IDLE : Nat := 0

/-- Status constant CONNECTED. -/
def CONNECTED : Nat := 1

/-- Status constant CLOSING. -/
def CLOSING : Nat := 2

/-- Status constant CLOSED. -/
def CLOSED : Nat := 3

/-- Status constant CONNECTING. -/
def CONNECTING : Nat := 4

/-- The retry wrap constant, fixed at 7 by the constructor and never
reassigned. -/
def retryWrap : Nat := 7

/-- The mutable fields of the BeamSocket class.  The active transport is
identified by a generation number; spool entries keep their packet, the
pending completion signal being modelled by the resolveSpooled output. -/
structure Socket where
  addressOffset : Nat
  addresses : List String
  spool : List Packet
  ws : Option Nat
  pingTimeoutHandle : Option PingTimer
  retries : Nat
  reconnectTimeout : Option Nat
  callNo : Nat
  status : Nat
  authpacket : Option (Int × Int × String)
  replies : List Nat
  options : Options
  nodeWs : Bool
  welcomeArmed : Bool
deriving DecidableEq, Repr

/-- The constructor.  randOffset stands for
Math.floor(Math.random() * addresses.length), a uniform draw from
[0, addresses.length) whenever the list is nonempty. -/
def mkSocket (addresses : List String) (randOffset : Nat) (opts : Options)
    (nodeWs : Bool) : Socket :=
  { addressOffset := randOffset
    addresses := addresses
    spool := []
    ws := none
    pingTimeoutHandle := none
    retries := 0
    reconnectTimeout := none
    callNo := 0
    status := IDLE
    authpacket := none
    replies := []
    options := opts
    nodeWs := nodeWs
    welcomeArmed := false }

/-- getStatus. -/
def getStatus (s : Socket) : Nat :=
  s.status

/-- isConnected: status strictly equals CONNECTED. -/
def Socket.isConnected (s : Socket) : Bool :=
  s.status == CONNECTED

/-- getAddress: pre-increment the offset, wrap to zero past the end,
return the address at the new offset. -/
def getAddress (s : Socket) : Socket × String :=
  let off := if s.addressOffset + 1 ≥ s.addresses.length then 0
             else s.addressOffset + 1
  ({ s with addressOffset := off }, s.addresses.getD off "")

/-- getNextReconnectInterval: coin stands for Math.round(Math.random()),
a uniform draw from 0 or 1.  The retries counter is post-incremented. -/
def getNextReconnectInterval (s : Socket) (coin : Nat) : Socket × Nat :=
  let power := s.retries % retryWrap + coin
  ({ s with retries := s.retries + 1 }, (1 <<< power) * 500)

/-- resetPingTimeout: clear the handle and schedule a ping after
pingInterval. -/
def resetPingTimeout (s : Socket) : Socket :=
  { s with pingTimeoutHandle := some (PingTimer.pingAfter s.options.pingInterval) }

/-- handleClose: clear the keepalive handle and the transport, drop the
WelcomeEvent listener; when CLOSING finalize to CLOSED, otherwise pick a
backoff interval, go CONNECTING, schedule boot after the interval and
announce the reconnect. -/
def handleClose (s : Socket) (coin : Nat) : Socket × List Output :=
  let s1 := { s with pingTimeoutHandle := none, ws := none, welcomeArmed := false }
  if s1.status = CLOSING then
    ({ s1 with status := CLOSED }, [Output.emit Event.closed])
  else
    let r := getNextReconnectInterval s1 coin
    ({ r.1 with status := CONNECTING, reconnectTimeout := some r.2 },
     [Output.emit (Event.reconnecting r.2)])

/-- Result of the promise a send returns: settled at once, or pending
until the spooled entry is flushed. -/
inductive SendResult where
  | resolvedNow
  | pendingSpool
deriving DecidableEq, Repr

/-- send: transmit at once when connected or forced; otherwise spool the
frame unless its method is the authentication method, in which case the
frame is dropped and the promise resolves at once. -/
def send (s : Socket) (data : Packet) (force : Bool) :
    Socket × List Output × SendResult :=
  if s.isConnected || force then
    (s, [Output.transmit data, Output.emit (Event.sent data)], SendResult.resolvedNow)
  else if data.method != authMethod then
    ({ s with spool := s.spool ++ [data] },
     [Output.emit (Event.spooled data)], SendResult.pendingSpool)
  else
    (s, [], SendResult.resolvedNow)

/-- Call options: noReply, a per-call timeout, force. -/
structure CallOpts where
  noReply : Bool := false
  timeout : Option Nat := none
  force : Bool := false
deriving DecidableEq, Repr

/-- The timer delay armed by call: options.timeout when given and
nonzero (a JS falsy check), the default callTimeout otherwise. -/
def callDelay (opts : CallOpts) (cfg : Options) : Nat :=
  match opts.timeout with
  | some t => if t = 0 then cfg.callTimeout else t
  | none => cfg.callTimeout

/-- The outbound method packet built by call. -/
def methodPacket (m : String) (a : List Value) (i : Nat) : Packet :=
  { ptype := "method", method := m, arguments := a, id := i }

/-- What the promise returned by call is waiting on after the
synchronous part: settled at once in the noReply case, a race of the
registered reply against a timer, or deferred until the spooled send
resolves. -/
inductive CallArm where
  | noReplyDone
  | raceArmed (delay : Nat)
  | deferredToSpool
deriving DecidableEq, Repr

/-- call: allocate the next id, register a pending reply under it, send
the method packet, and describe the continuation of the returned
promise.  The allocated id is returned as the third component. -/
def call (s : Socket) (m : String) (a : List Value) (opts : CallOpts) :
    Socket × List Output × Nat × CallArm :=
  let i := s.callNo
  let s1 := { s with callNo := s.callNo + 1, replies := i :: s.replies }
  let r := send s1 (methodPacket m a i) opts.force
  match r.2.2 with
  | SendResult.resolvedNow =>
      if opts.noReply then (r.1, r.2.1, i, CallArm.noReplyDone)
      else (r.1, r.2.1, i, CallArm.raceArmed (callDelay opts s.options))
  | SendResult.pendingSpool => (r.1, r.2.1, i, CallArm.deferredToSpool)

/-- Modelled from the spec: Reply.handle settles from the envelope,
rejecting with the error field when present, resolving with data
otherwise. -/
def replyHandle (p : Packet) : ReplyOutcome :=
  match p.error with
  | some e => ReplyOutcome.rejectedWith e
  | none => ReplyOutcome.resolved p.data

/-- parsePacket: report binary and unparsable frames as bad messages;
observe every parsed packet; route replies to the registered pending
call when one exists (the handled packet is returned as the third
component, standing for the reply.handle invocation) and report a
missing handler otherwise; re-emit events; report unknown types. -/
def parsePacket (s : Socket) (f : Frame) :
    Socket × List Output × Option Packet :=
  match f with
  | Frame.binary =>
      (s, [Output.emit (Event.error (ErrKind.badMessage "Cannot parse binary packets. Wat."))], none)
  | Frame.malformed =>
      (s, [Output.emit (Event.error (ErrKind.badMessage "Unable to parse packet as json"))], none)
  | Frame.text p =>
      if p.ptype = "reply" then
        if p.id ∈ s.replies then
          ({ s with replies := s.replies.erase p.id },
           [Output.emit (Event.packet p)], some p)
        else
          (s, [Output.emit (Event.packet p),
               Output.emit (Event.error ErrKind.noMethodHandler)], none)
      else if p.ptype = "event" then
        (s, [Output.emit (Event.packet p),
             Output.emit (Event.serverEvent p.event p.data)], none)
      else
        (s, [Output.emit (Event.packet p),
             Output.emit (Event.error (ErrKind.badMessage ("Unknown packet type " ++ p.ptype)))], none)

/-- The loop body of bang over the spool: send each entry forcibly and
resolve its completion signal, in order. -/
def flushSpool (s : Socket) : List Packet → Socket × List Output
  | [] => (s, [])
  | q :: rest =>
      let r := send s q true
      let r2 := flushSpool r.1 rest
      (r2.1, r.2.1 ++ [Output.resolveSpooled q] ++ r2.2)

/-- bang: flush the spool in order, empty it, reset the retry counter,
set status CONNECTED and announce the connection. -/
def bang (s : Socket) : Socket × List Output :=
  let r := flushSpool s s.spool
  ({ r.1 with spool := [], retries := 0, status := CONNECTED },
   r.2 ++ [Output.emit Event.connected])

/-- close: when a transport exists request its close and go CLOSING;
otherwise drop the pending reconnect timer and go CLOSED at once. -/
def close (s : Socket) : Socket × List Output :=
  match s.ws with
  | some g => ({ s with status := CLOSING }, [Output.wsClose g])
  | none => ({ s with reconnectTimeout := none, status := CLOSED }, [])

/-- The argument array built from the saved authentication tuple. -/
def authArgs (ap : Int × Int × String) : List Value :=
  [Value.vnum ap.1, Value.vnum ap.2.1, Value.vstr ap.2.2]

/-- Continuation of unspool: done at once, or awaiting the forced auth
call registered under the given id. -/
inductive UnspoolCont where
  | done
  | awaitingAuth (i : Nat)
deriving DecidableEq, Repr

/-- unspool: with a saved authentication tuple, issue the forced auth
call and wait on it; otherwise run bang at once. -/
def unspool (s : Socket) : Socket × List Output × UnspoolCont :=
  match s.authpacket with
  | some ap =>
      let c := call s authMethod (authArgs ap) { force := true }
      (c.1, c.2.1, UnspoolCont.awaitingAuth c.2.2.1)
  | none =>
      let b := bang s
      (b.1, b.2, UnspoolCont.done)

/-- Continuation of unspool when the forced auth call resolves: announce
the auth result, then bang. -/
def unspoolAuthResolved (s : Socket) (result : Value) : Socket × List Output :=
  let b := bang s
  (b.1, Output.emit (Event.authresult result) :: b.2)

/-- Continuation of unspool when the forced auth call rejects: announce
the authentication failure, then close. -/
def unspoolAuthRejected (s : Socket) : Socket × List Output :=
  let c := close s
  (c.1, Output.emit (Event.error ErrKind.authFailed) :: c.2)

/-- boot: pick the next address, install a fresh transport with
generation g, go CONNECTING, arm the connection establishment deadline
that closes the transport, and arm the WelcomeEvent listener. -/
def boot (s : Socket) (g : Nat) : Socket :=
  let s1 := (getAddress s).1
  { s1 with ws := some g
            status := CONNECTING
            pingTimeoutHandle := some (PingTimer.closeWsAfter s.options.pingTimeout g)
            welcomeArmed := true }

/-- The four transport events a boot call registers handlers for. -/
inductive WsEvent where
  | wopen
  | message (f : Frame)
  | wclose
  | werror
deriving DecidableEq, Repr

/-- The handlers boot registers on transport g, each wrapped in
whilstSameSocket: the guard (an arrow function with the socket as its
lexical receiver) first checks that g is still the active transport and
otherwise does nothing.  When the guard passes, the wrapper calls
fn.apply(self, args), and no self binding exists in the module: the
arrow-style open and error handlers ignore the receiver and behave as
written (re-arm the welcome deadline; announce the fault and request
the transport close), but the function-style message and close handlers
read their fields from the wrong receiver and throw before touching any
session field, so parsePacket and handleClose are never reached from a
real transport event; only the uncaught throw is observable.  The coin
parameter is kept for the backoff draw handleClose would have made. -/
def bootHandler (g : Nat) (_coin : Nat) (s : Socket) (ev : WsEvent) :
    Socket × List Output :=
  if s.ws = some g then
    match ev with
    | WsEvent.wopen =>
        ({ s with pingTimeoutHandle := some (PingTimer.closeWsAfter s.options.pingTimeout g) }, [])
    | WsEvent.message _ => (s, [Output.uncaughtThrow])
    | WsEvent.wclose => (s, [Output.uncaughtThrow])
    | WsEvent.werror =>
        (s, [Output.emit (Event.error ErrKind.transport), Output.wsClose g])
  else (s, [])

/-- The WelcomeEvent listener boot arms once: reset the keepalive and
run unspool. -/
def onWelcome (s : Socket) : Socket × List Output × UnspoolCont :=
  unspool { (resetPingTimeout s) with welcomeArmed := false }

/-- How the ping promise proceeds after the synchronous part of ping. -/
inductive PingStart where
  | rejectedTimeout
  | nativeRace (g : Nat) (tmo : Nat)
  | viaCall (i : Nat)
deriving DecidableEq, Repr

/-- ping: clear the keepalive handle; when not connected, return a
promise rejected at once with a timeout error; on a node transport send
a native ping and race the pong against the timeout; otherwise fall
back to a regular call of the ping method. -/
def ping (s : Socket) : Socket × List Output × PingStart :=
  let s1 := { s with pingTimeoutHandle := none }
  if s.isConnected = false then
    (s1, [], PingStart.rejectedTimeout)
  else if s.nodeWs then
    (s1, [Output.wsPing (s.ws.getD 0)],
     PingStart.nativeRace (s.ws.getD 0) s.options.pingTimeout)
  else
    let c := call s1 "ping" [] { timeout := some s.options.pingTimeout }
    (c.1, c.2.1, PingStart.viaCall c.2.2.1)

/-- How the auth promise proceeds. -/
inductive AuthStart where
  | viaCall (i : Nat) (arm : CallArm)
  | awaitingAuthresult
deriving DecidableEq, Repr

/-- auth: persist the tuple; when connected issue the auth call at
once, otherwise wait for the next authresult notification. -/
def auth (s : Socket) (cid uid : Int) (key : String) :
    Socket × List Output × AuthStart :=
  let s1 := { s with authpacket := some (cid, uid, key) }
  if s1.isConnected then
    let c := call s1 authMethod [Value.vnum cid, Value.vnum uid, Value.vstr key] {}
    (c.1, c.2.1, AuthStart.viaCall c.2.2.1 c.2.2.2)
  else
    (s1, [], AuthStart.awaitingAuthresult)

/-- Iterate getAddress, collecting the returned addresses in order. -/
def getAddressRun (s : Socket) : Nat → Socket × List String
  | 0 => (s, [])
  | n + 1 =>
      let r := getAddress s
      let r2 := getAddressRun r.1 n
      (r2.1, r.2 :: r2.2)

/-- How the promise a call returned was settled: by the reply envelope
handed to reply.handle, or by the timeout rejection. -/
inductive Settlement where
  | replied (p : Packet)
  | timedOut
deriving DecidableEq, Repr

/-- Key lookup in the settlement association list, first entry wins. -/
def settledLookup : List (Nat × Settlement) → Nat → Option Settlement
  | [], _ => none
  | (k, v) :: tl, i => if k = i then some v else settledLookup tl i

/-- The socket together with the settlements of the promises returned
by calls, keyed by call id.  A JS promise ignores any settlement after
the first, so only the first settlement per id is ever recorded. -/
structure Sys where
  sock : Socket
  settled : List (Nat × Settlement)
deriving DecidableEq, Repr

/-- Events relevant to the life of an armed call race: an inbound frame,
or the timeout timer of call i firing. -/
inductive CallEvent where
  | inbound (f : Frame)
  | timerFires (i : Nat)
deriving DecidableEq, Repr

/-- One event step.  An inbound frame runs parsePacket; when a reply is
handled, the race of that call settles with the envelope unless it
already settled.  A firing timer settles the race as timed out and
deregisters the pending call (the catch clause of call) unless the race
already settled, in which case the late rejection is swallowed. -/
def stepEv (y : Sys) (ev : CallEvent) : Sys × List Output :=
  match ev with
  | CallEvent.inbound f =>
      let r := parsePacket y.sock f
      match r.2.2 with
      | some p =>
          if (settledLookup y.settled p.id).isSome then
            ({ sock := r.1, settled := y.settled }, r.2.1)
          else
            ({ sock := r.1, settled := y.settled ++ [(p.id, Settlement.replied p)] },
             r.2.1 ++ [Output.settleReply p.id (replyHandle p)])
      | none => ({ sock := r.1, settled := y.settled }, r.2.1)
  | CallEvent.timerFires i =>
      if (settledLookup y.settled i).isSome then (y, [])
      else
        ({ sock := { y.sock with replies := y.sock.replies.erase i },
           settled := y.settled ++ [(i, Settlement.timedOut)] },
         [Output.settleTimeout i])

/-- Run a list of events in order, concatenating the outputs. -/
def runEvents (y : Sys) : List CallEvent → Sys × List Output
  | [] => (y, [])
  | e :: rest =>
      let r := stepEv y e
      let r2 := runEvents r.1 rest
      (r2.1, r.2 ++ r2.2)

/-- Every settlement recorded by a reply carries the packet whose id
field equals the id it is recorded under. -/
def repliedIdsMatch (l : List (Nat × Settlement)) : Prop :=
  ∀ e ∈ l, ∀ p, e.2 = Settlement.replied p → p.id = e.1

/-- The system right after the synchronous part of a call: the updated
socket, with the promise returned by the call not yet settled. -/
def callSys (s : Socket) (m : String) (a : List Value) (opts : CallOpts) : Sys :=
  { sock := (call s m a opts).1, settled := [] }

/-- The outputs of flushing one spool in order: each entry transmitted,
marked sent, and its completion signal resolved, in the original
enqueue order. -/
def flushOuts : List Packet → List Output
  | [] => []
  | q :: rest => Output.transmit q :: Output.emit (Event.sent q) ::
      Output.resolveSpooled q :: flushOuts rest

/-! Concrete sockets used by the witnesses. -/

/-- A concrete idle socket. -/
def sockIdle : Socket := mkSocket ["a", "b"] 0 {} true

/-- A concrete spooled frame. -/
def pktW : Packet := { ptype := "method", method := "whisper", id := 1 }

/-- A concrete idle socket with one spooled frame. -/
def sockSp : Socket := { mkSocket ["a", "b"] 0 {} true with spool := [pktW] }

/-- A concrete idle socket with a saved authentication tuple and an
active transport. -/
def sockAuth : Socket :=
  { mkSocket ["a", "b"] 0 {} true with authpacket := some (1, 2, "k"), ws := some 7 }

/-- A concrete connected socket. -/
def sockConn : Socket := { mkSocket ["a", "b"] 0 {} true with status := CONNECTED }

/-- A concrete auth frame. -/
def authDropPkt : Packet := { ptype := "method", method := "auth", id := 3 }

/-- A concrete reply frame with an id no pending call carries. -/
def replyPkt999 : Packet := { ptype := "reply", id := 999 }

/-- A concrete socket with three addresses, offset one. -/
def sockC5 : Socket := mkSocket ["a", "b", "c"] 1 {} true

/-! Claims C4 and C7 to C10: single transitions of the state machine. -/

/-- Claim C4: for every attempt counter value, the computed reconnect
delay is 2 ^ (retries mod 7) * 500 or 2 ^ (retries mod 7 + 1) * 500
milliseconds according to the coin flip, the counter is incremented on
every computation, bang (run at the end of a successful unspool) resets
the counter to 0, and neither the transport open handler nor boot
itself touches the counter. -/
theorem C4_backoff_interval_and_counter (s : Socket) (coin g : Nat) (hc : coin ≤ 1) :
    ((getNextReconnectInterval s coin).2 = 2 ^ (s.retries % 7) * 500 ∨
      (getNextReconnectInterval s coin).2 = 2 ^ (s.retries % 7 + 1) * 500) ∧
    (getNextReconnectInterval s coin).1.retries = s.retries + 1 ∧
    (bang s).1.retries = 0 ∧
    (bootHandler g coin s WsEvent.wopen).1.retries = s.retries ∧
    (boot s g).retries = s.retries := by
  refine ⟨?_, ?_, ?_, ?_, ?_⟩
  · interval_cases coin
    · left; simp [getNextReconnectInterval, retryWrap, Nat.shiftLeft_eq]
    · right; simp [getNextReconnectInterval, retryWrap, Nat.shiftLeft_eq]
  · simp [getNextReconnectInterval]
  · simp [bang]
  · by_cases hw : s.ws = some g <;> simp [bootHandler, hw]
  · simp [boot, getAddress]

/-- Witness for C4 at a concrete socket with nine previous retries. -/
theorem C4_witness :
    (getNextReconnectInterval { sockIdle with retries := 9 } 1).1.retries
      = { sockIdle with retries := 9 }.retries + 1 :=
  (C4_backoff_interval_and_counter { sockIdle with retries := 9 } 1 0 (by decide)).2.1

/-- The loop of bang leaves the state unchanged, since a forced send
does not write any field, and produces the flush outputs in order. -/
theorem flushSpool_eq (s : Socket) (l : List Packet) :
    flushSpool s l = (s, flushOuts l) := by
  induction l generalizing s with
  | nil => simp [flushSpool, flushOuts]
  | cons q rest ih => simp [flushSpool, flushOuts, send, ih]

/-- Claim C2: a send while disconnected (of a frame whose method is not
the authentication method) appends the frame to the spool with a
pending completion signal and a spooled notification; bang then flushes
the whole spool in FIFO order, transmitting each frame with a sent
notification and resolving its signal, strictly before the status is
set to CONNECTED and the connected notification fires; with no saved
authentication tuple, unspool is exactly this flush. -/
theorem C2_spool_fifo (s : Socket) (p : Packet)
    (hns : s.isConnected = false) (hm : p.method ≠ authMethod) :
    send s p false = ({ s with spool := s.spool ++ [p] },
      [Output.emit (Event.spooled p)], SendResult.pendingSpool) ∧
    bang s = ({ s with spool := [], retries := 0, status := CONNECTED },
      flushOuts s.spool ++ [Output.emit Event.connected]) ∧
    (s.authpacket = none →
       unspool s = ({ s with spool := [], retries := 0, status := CONNECTED },
         flushOuts s.spool ++ [Output.emit Event.connected], UnspoolCont.done)) := by
  refine ⟨?_, ?_, fun ha => ?_⟩
  · simp [send, hns, hm]
  · simp [bang, flushSpool_eq]
  · simp [unspool, ha, bang, flushSpool_eq]

/-- Witness for C2 at a concrete disconnected socket. -/
theorem C2_witness :
    send sockSp pktW false = ({ sockSp with spool := sockSp.spool ++ [pktW] },
      [Output.emit (Event.spooled pktW)], SendResult.pendingSpool) :=
  (C2_spool_fifo sockSp pktW (by decide) (by decide)).1

/-- Claim C3 (code bug): with a saved authentication tuple, unspool
does issue the forced auth call first (only the transmitted auth frame
and its sent notification, the spool not flushed, the status
unchanged), and when that call rejects exactly one
authentication-failed error is emitted, close is initiated, no
connected notification fires and the status is never CONNECTED — all
as the claim states.  But the claimed transition to CLOSED fails
whenever a transport is active: close only reaches CLOSING, and the
later transport close event hits the function-style close handler,
which the boot wrapper applies to the unbound self receiver, so it
throws before handleClose runs; the session stays in CLOSING and never
emits closed.  Only a session with no transport reaches CLOSED. -/
theorem C3_auth_failure_stuck_in_closing (s : Socket) (ap : Int × Int × String)
    (g coin : Nat) (ha : s.authpacket = some ap) :
    (unspool s).2.1 = [Output.transmit (methodPacket authMethod (authArgs ap) s.callNo),
       Output.emit (Event.sent (methodPacket authMethod (authArgs ap) s.callNo))] ∧
    (unspool s).2.2 = UnspoolCont.awaitingAuth s.callNo ∧
    (unspool s).1.spool = s.spool ∧
    (unspool s).1.status = s.status ∧
    (unspool s).1.replies = s.callNo :: s.replies ∧
    (unspoolAuthRejected s).2.count (Output.emit (Event.error ErrKind.authFailed)) = 1 ∧
    (unspoolAuthRejected s).1.spool = s.spool ∧
    Output.emit Event.connected ∉ (unspoolAuthRejected s).2 ∧
    (unspoolAuthRejected s).1.status ≠ CONNECTED ∧
    (s.ws = some g →
       (unspoolAuthRejected s).1.status = CLOSING ∧
       (bootHandler g coin (unspoolAuthRejected s).1 WsEvent.wclose)
         = ((unspoolAuthRejected s).1, [Output.uncaughtThrow]) ∧
       (bootHandler g coin (unspoolAuthRejected s).1 WsEvent.wclose).1.status ≠ CLOSED ∧
       Output.emit Event.closed
         ∉ (bootHandler g coin (unspoolAuthRejected s).1 WsEvent.wclose).2) ∧
    (s.ws = none → (unspoolAuthRejected s).1.status = CLOSED) := by
  refine ⟨?_, ?_, ?_, ?_, ?_, ?_, ?_, ?_, ?_, fun hw => ⟨?_, ?_, ?_, ?_⟩, fun hw => ?_⟩
  · simp [unspool, ha, call, send]
  · simp [unspool, ha, call, send]
  · simp [unspool, ha, call, send]
  · simp [unspool, ha, call, send]
  · simp [unspool, ha, call, send]
  · cases hw : s.ws <;>
      simp [unspoolAuthRejected, close, hw, List.count_cons, beq_iff_eq]
  · cases hw : s.ws <;> simp [unspoolAuthRejected, close, hw]
  · cases hw : s.ws <;> simp [unspoolAuthRejected, close, hw]
  · cases hw : s.ws <;>
      simp [unspoolAuthRejected, close, hw, CLOSING, CLOSED, CONNECTED]
  · simp [unspoolAuthRejected, close, hw]
  · simp [unspoolAuthRejected, close, hw, bootHandler]
  · simp [unspoolAuthRejected, close, hw, bootHandler, CLOSING, CLOSED]
  · simp [unspoolAuthRejected, close, hw, bootHandler]
  · simp [unspoolAuthRejected, close, hw]

/-- Witness for C3 at a concrete socket with a saved tuple and an
active transport: after the rejected re-auth the status is CLOSING and
the transport close event leaves it there with only an uncaught
throw. -/
theorem C3_witness :
    (bootHandler 7 0 (unspoolAuthRejected sockAuth).1 WsEvent.wclose)
      = ((unspoolAuthRejected sockAuth).1, [Output.uncaughtThrow]) :=
  ((C3_auth_failure_stuck_in_closing sockAuth (1, 2, "k") 7 0
      (by decide)).2.2.2.2.2.2.2.2.2.1 (by decide)).2.1

/-- Claim C7: handleClose clears the keepalive handle and the active
transport; when the status was CLOSING it finalizes to CLOSED and emits
a closed notification without scheduling a reconnect; in every other
status it computes a backoff delay, goes CONNECTING, schedules boot
after that delay and emits a reconnecting notification carrying the
same delay. -/
theorem C7_handleClose_terminal_or_reconnect (s : Socket) (coin : Nat) (hc : coin ≤ 1) :
    (handleClose s coin).1.pingTimeoutHandle = none ∧
    (handleClose s coin).1.ws = none ∧
    (s.status = CLOSING →
       (handleClose s coin).1.status = CLOSED ∧
       (handleClose s coin).2 = [Output.emit Event.closed] ∧
       (handleClose s coin).1.reconnectTimeout = s.reconnectTimeout) ∧
    (s.status ≠ CLOSING →
       ∃ delay,
         (delay = 2 ^ (s.retries % 7) * 500 ∨ delay = 2 ^ (s.retries % 7 + 1) * 500) ∧
         (handleClose s coin).1.status = CONNECTING ∧
         (handleClose s coin).1.reconnectTimeout = some delay ∧
         (handleClose s coin).2 = [Output.emit (Event.reconnecting delay)]) := by
  by_cases hS : s.status = CLOSING
  · refine ⟨?_, ?_, fun _ => ⟨?_, ?_, ?_⟩, fun hn => absurd hS hn⟩ <;>
      simp [handleClose, hS]
  · refine ⟨?_, ?_, fun hcl => absurd hcl hS, fun _ =>
      ⟨(1 <<< (s.retries % retryWrap + coin)) * 500, ?_, ?_, ?_, ?_⟩⟩
    · simp [handleClose, getNextReconnectInterval, hS]
    · simp [handleClose, getNextReconnectInterval, hS]
    · interval_cases coin
      · left; simp [retryWrap, Nat.shiftLeft_eq]
      · right; simp [retryWrap, Nat.shiftLeft_eq]
    · simp [handleClose, getNextReconnectInterval, hS]
    · simp [handleClose, getNextReconnectInterval, hS]
    · simp [handleClose, getNextReconnectInterval, hS]

/-- Witness for C7 at a concrete closing socket. -/
theorem C7_witness :
    (handleClose { sockIdle with status := CLOSING } 0).1.status = CLOSED :=
  ((C7_handleClose_terminal_or_reconnect { sockIdle with status := CLOSING } 0
      (by decide)).2.2.1 rfl).1

/-- One getAddress step: the offset advances by one modulo the list
length and the address at the new offset is returned. -/
theorem getAddress_step (s : Socket) (h : s.addressOffset < s.addresses.length) :
    (getAddress s).1.addressOffset = (s.addressOffset + 1) % s.addresses.length ∧
    (getAddress s).1.addresses = s.addresses ∧
    (getAddress s).2
      = s.addresses.getD ((s.addressOffset + 1) % s.addresses.length) "" := by
  by_cases hb : s.addressOffset + 1 ≥ s.addresses.length
  · have he : s.addressOffset + 1 = s.addresses.length := by omega
    refine ⟨?_, ?_, ?_⟩ <;> simp [getAddress, hb, he, Nat.mod_self]
  · have hlt : s.addressOffset + 1 < s.addresses.length := by omega
    refine ⟨?_, ?_, ?_⟩ <;> simp [getAddress, hb, Nat.mod_eq_of_lt hlt]

/-- Index arithmetic for consecutive round-robin steps. -/
theorem addrIndexEq (o k n : Nat) :
    (o % n + 1 + k) % n = (o + (k + 1)) % n := by
  have h1 : o % n + 1 + k = o % n + (1 + k) := by omega
  rw [h1, Nat.mod_add_mod]
  have h2 : o + (1 + k) = o + (k + 1) := by omega
  rw [h2]

/-- Closed form of n consecutive getAddress results. -/
theorem getAddressRun_closed (n : Nat) (s : Socket)
    (h : s.addressOffset < s.addresses.length) :
    (getAddressRun s n).2 = (List.range n).map
      (fun k => s.addresses.getD ((s.addressOffset + 1 + k) % s.addresses.length) "") := by
  induction n generalizing s with
  | zero => simp [getAddressRun]
  | succ n ih =>
      obtain ⟨h1, h2, h3⟩ := getAddress_step s h
      have hpos : 0 < s.addresses.length := by omega
      have hoff : (getAddress s).1.addressOffset < (getAddress s).1.addresses.length := by
        rw [h1, h2]; exact Nat.mod_lt _ hpos
      have ihx := ih (getAddress s).1 hoff
      rw [h1, h2] at ihx
      show (getAddress s).2 :: (getAddressRun (getAddress s).1 n).2 = _
      rw [h3, ihx, List.range_succ_eq_map, List.map_cons, List.map_map]
      refine congrArg₂ _ ?_ ?_
      · simp
      · refine List.map_congr_left fun k _ => ?_
        simp only [Function.comp]
        rw [addrIndexEq (s.addressOffset + 1) k s.addresses.length]

/-- The n results, read from any in-range offset, are a rotation of the
address list. -/
theorem runEqualsRotate (l : List String) (o : Nat) (h : o < l.length) :
    (List.range l.length).map (fun k => l.getD ((o + 1 + k) % l.length) "")
      = l.rotate ((o + 1) % l.length) := by
  have hpos : 0 < l.length := by omega
  apply List.ext_getElem
  · simp
  · intro i h1 h2
    have hmod2 : (i + (o + 1) % l.length) % l.length < l.length := Nat.mod_lt _ hpos
    simp only [List.getElem_map, List.getElem_range, List.getElem_rotate]
    rw [← List.getD_eq_getElem l "" hmod2]
    congr 1
    rw [Nat.add_mod_mod]
    congr 1
    omega

/-- Claim C5: from any in-range offset (as drawn by the constructor),
each getAddress call advances the offset by one wrapping past the end,
and a full cycle of length-many consecutive calls returns a permutation
of the address list: every address exactly once before any repeats. -/
theorem C5_round_robin (s : Socket) (h : s.addressOffset < s.addresses.length) :
    (getAddress s).1.addressOffset = (s.addressOffset + 1) % s.addresses.length ∧
    (getAddressRun s s.addresses.length).2.Perm s.addresses := by
  obtain ⟨h1, -, -⟩ := getAddress_step s h
  refine ⟨h1, ?_⟩
  rw [getAddressRun_closed _ _ h, runEqualsRotate _ _ h]
  exact List.rotate_perm _ _

/-- Witness for C5 on a three-address socket at offset one. -/
theorem C5_witness :
    (getAddressRun sockC5 sockC5.addresses.length).2.Perm sockC5.addresses :=
  (C5_round_robin sockC5 (by decide)).2

/-- Claim C6: parsePacket is total and never writes the status or the
spool; binary frames, unparsable frames and frames of unknown envelope
type each produce exactly one bad-message error notification and leave
the whole state unchanged; a reply whose id matches no pending call
produces exactly one no-handler error notification, leaving the state
and every registered pending call unchanged. -/
theorem C6_parsePacket_robust (s : Socket) :
    (∀ f, (parsePacket s f).1.status = s.status ∧ (parsePacket s f).1.spool = s.spool) ∧
    parsePacket s Frame.binary = (s,
      [Output.emit (Event.error (ErrKind.badMessage "Cannot parse binary packets. Wat."))],
      none) ∧
    parsePacket s Frame.malformed = (s,
      [Output.emit (Event.error (ErrKind.badMessage "Unable to parse packet as json"))],
      none) ∧
    (∀ p, p.ptype ≠ "reply" → p.ptype ≠ "event" →
       parsePacket s (Frame.text p) = (s, [Output.emit (Event.packet p),
         Output.emit (Event.error (ErrKind.badMessage ("Unknown packet type " ++ p.ptype)))],
         none)) ∧
    (∀ p, p.ptype = "reply" → p.id ∉ s.replies →
       parsePacket s (Frame.text p) = (s, [Output.emit (Event.packet p),
         Output.emit (Event.error ErrKind.noMethodHandler)], none)) := by
  refine ⟨?_, ?_, ?_, ?_, ?_⟩
  · intro f
    cases f with
    | binary => simp [parsePacket]
    | malformed => simp [parsePacket]
    | text p =>
        by_cases h1 : p.ptype = "reply"
        · by_cases h2 : p.id ∈ s.replies <;> simp [parsePacket, h1, h2]
        · by_cases h2 : p.ptype = "event" <;> simp [parsePacket, h1, h2]
  · simp [parsePacket]
  · simp [parsePacket]
  · intro p h1 h2; simp [parsePacket, h1, h2]
  · intro p h1 h2; simp [parsePacket, h1, h2]

/-- Witness for C6: the scenario frame of reply id 999 with no pending
call registered. -/
theorem C6_witness :
    parsePacket sockConn (Frame.text replyPkt999) = (sockConn,
      [Output.emit (Event.packet replyPkt999),
       Output.emit (Event.error ErrKind.noMethodHandler)], none) :=
  (C6_parsePacket_robust sockConn).2.2.2.2 replyPkt999 (by decide) (by decide)

/-- Claim C8: each of the four transport callbacks registered by boot
(open, message, close, error) is wrapped in the same-socket guard, so
an event delivered by a transport that is no longer the active one
leaves the whole state unchanged and produces no output. -/
theorem C8_stale_transport_ignored (g coin : Nat) (s : Socket) (ev : WsEvent)
    (h : s.ws ≠ some g) :
    bootHandler g coin s ev = (s, []) := by
  simp [bootHandler, h]

/-- Witness for C8: a close event from transport 5 while no transport
is active. -/
theorem C8_witness :
    bootHandler 5 0 sockIdle WsEvent.wclose = (sockIdle, []) :=
  C8_stale_transport_ignored 5 0 sockIdle WsEvent.wclose (by decide)

/-- Claim C9: whenever the session is not connected, ping immediately
returns a promise rejected with a timeout error; it transmits nothing,
spools nothing, emits no notification, does not close the transport,
and the only state change is clearing the keepalive handle. -/
theorem C9_ping_rejected_when_disconnected (s : Socket) (h : s.isConnected = false) :
    ping s = ({ s with pingTimeoutHandle := none }, [], PingStart.rejectedTimeout) ∧
    (ping s).2.1 = [] ∧
    (ping s).1.spool = s.spool ∧
    (ping s).1.status = s.status ∧
    (ping s).1.ws = s.ws := by
  refine ⟨?_, ?_, ?_, ?_, ?_⟩ <;> simp [ping, h]

/-- Witness for C9 at a concrete idle socket. -/
theorem C9_witness :
    ping sockIdle = ({ sockIdle with pingTimeoutHandle := none }, [],
      PingStart.rejectedTimeout) :=
  (C9_ping_rejected_when_disconnected sockIdle (by decide)).1

/-- Claim C10: a send of an auth frame while disconnected and not
forced is silently dropped: the promise resolves at once, yet nothing
is transmitted, nothing is spooled, no notification is emitted and the
state is unchanged. -/
theorem C10_auth_frame_dropped (s : Socket) (p : Packet)
    (hns : s.isConnected = false) (hm : p.method = authMethod) :
    send s p false = (s, [], SendResult.resolvedNow) := by
  simp [send, hns, hm]

/-- Witness for C10 at a concrete idle socket and auth frame. -/
theorem C10_witness :
    send sockIdle authDropPkt false = (sockIdle, [], SendResult.resolvedNow) :=
  C10_auth_frame_dropped sockIdle authDropPkt (by decide) (by decide)

/-! Claim C1: settlement machinery. -/

/-- Lookup survives appending entries on the right. -/
theorem settledLookup_append_some {l : List (Nat × Settlement)}
    (l' : List (Nat × Settlement)) {i : Nat} {o : Settlement}
    (h : settledLookup l i = some o) :
    settledLookup (l ++ l') i = some o := by
  induction l with
  | nil => simp [settledLookup] at h
  | cons hd tl ih =>
      obtain ⟨k, v⟩ := hd
      by_cases hk : k = i
      · simpa [settledLookup, hk] using h
      · rw [List.cons_append]
        simp only [settledLookup, if_neg hk] at h ⊢
        exact ih h

/-- A key absent from the list is found in a fresh right appension. -/
theorem settledLookup_append_of_none {l : List (Nat × Settlement)} {i : Nat}
    (o : Settlement) (h : settledLookup l i = none) :
    settledLookup (l ++ [(i, o)]) i = some o := by
  induction l with
  | nil => simp [settledLookup]
  | cons hd tl ih =>
      obtain ⟨k, v⟩ := hd
      by_cases hk : k = i
      · simp [settledLookup, hk] at h
      · rw [List.cons_append]
        simp only [settledLookup, if_neg hk] at h ⊢
        exact ih h

/-- A successful lookup comes from an entry of the list. -/
theorem settledLookup_mem {l : List (Nat × Settlement)} {i : Nat} {o : Settlement}
    (h : settledLookup l i = some o) : (i, o) ∈ l := by
  induction l with
  | nil => simp [settledLookup] at h
  | cons hd tl ih =>
      obtain ⟨k, v⟩ := hd
      by_cases hk : k = i
      · subst hk
        simp [settledLookup] at h
        subst h
        exact List.mem_cons_self _ _
      · simp only [settledLookup, if_neg hk] at h
        exact List.mem_cons_of_mem _ (ih h)

/-- The empty settlement list satisfies the reply id invariant. -/
theorem repliedIdsMatch_nil : repliedIdsMatch [] := by
  intro e he
  simp at he

/-- Appending a good entry preserves the reply id invariant. -/
theorem repliedIdsMatch_append {l : List (Nat × Settlement)} {x : Nat × Settlement}
    (h : repliedIdsMatch l) (hx : ∀ p, x.2 = Settlement.replied p → p.id = x.1) :
    repliedIdsMatch (l ++ [x]) := by
  intro e he p hp
  rcases List.mem_append.mp he with hl | hr
  · exact h e hl p hp
  · simp at hr
    subst hr
    exact hx p hp

/-- Every step preserves the reply id invariant: the only entries ever
appended are keyed by the id of the handled packet, or timeouts. -/
theorem stepEv_repliedIdsMatch (y : Sys) (ev : CallEvent)
    (h : repliedIdsMatch y.settled) :
    repliedIdsMatch (stepEv y ev).1.settled := by
  cases ev with
  | inbound f =>
      cases hp : (parsePacket y.sock f).2.2 with
      | none => simpa [stepEv, hp] using h
      | some p =>
          by_cases hs : (settledLookup y.settled p.id).isSome
          · simpa [stepEv, hp, hs] using h
          · simp only [stepEv, hp, Bool.not_eq_true] at hs ⊢
            simp only [hs, Bool.false_eq_true, if_false]
            refine repliedIdsMatch_append h fun q hq => ?_
            injection hq with hq2
            rw [hq2]
  | timerFires i =>
      by_cases hs : (settledLookup y.settled i).isSome
      · simpa [stepEv, hs] using h
      · simp only [stepEv, Bool.not_eq_true] at hs ⊢
        simp only [hs, Bool.false_eq_true, if_false]
        refine repliedIdsMatch_append h fun q hq => ?_
        cases hq

/-- Every step preserves an existing settlement: a promise, once
settled, never settles again. -/
theorem stepEv_settled_stable (y : Sys) (ev : CallEvent) {i : Nat} {o : Settlement}
    (h : settledLookup y.settled i = some o) :
    settledLookup (stepEv y ev).1.settled i = some o := by
  cases ev with
  | inbound f =>
      cases hp : (parsePacket y.sock f).2.2 with
      | none => simpa [stepEv, hp] using h
      | some p =>
          by_cases hs : (settledLookup y.settled p.id).isSome
          · simpa [stepEv, hp, hs] using h
          · simp only [stepEv, hp, Bool.not_eq_true] at hs ⊢
            simp only [hs, Bool.false_eq_true, if_false]
            exact settledLookup_append_some _ h
  | timerFires j =>
      by_cases hs : (settledLookup y.settled j).isSome
      · simpa [stepEv, hs] using h
      · simp only [stepEv, Bool.not_eq_true] at hs ⊢
        simp only [hs, Bool.false_eq_true, if_false]
        exact settledLookup_append_some _ h

/-- Any event sequence preserves an existing settlement. -/
theorem runEvents_settled_stable (evs : List CallEvent) (y : Sys) {i : Nat}
    {o : Settlement} (h : settledLookup y.settled i = some o) :
    settledLookup (runEvents y evs).1.settled i = some o := by
  induction evs generalizing y with
  | nil => simpa [runEvents] using h
  | cons e rest ih =>
      simp only [runEvents]
      exact ih _ (stepEv_settled_stable y e h)

/-- Any event sequence preserves the reply id invariant. -/
theorem runEvents_repliedIdsMatch (evs : List CallEvent) (y : Sys)
    (h : repliedIdsMatch y.settled) :
    repliedIdsMatch (runEvents y evs).1.settled := by
  induction evs generalizing y with
  | nil => simpa [runEvents] using h
  | cons e rest ih =>
      simp only [runEvents]
      exact ih _ (stepEv_repliedIdsMatch y e h)

/-- An inbound reply whose id matches no registered pending call is
answered with a no-handler error and changes nothing. -/
theorem stepEv_reply_no_handler (y1 : Sys) (p : Packet) (hp : p.ptype = "reply")
    (hmem : p.id ∉ y1.sock.replies) :
    stepEv y1 (CallEvent.inbound (Frame.text p))
      = (y1, [Output.emit (Event.packet p),
              Output.emit (Event.error ErrKind.noMethodHandler)]) := by
  simp [stepEv, parsePacket, hp, hmem]

/-- Claim C1 as amended: a call without noReply whose send resolves
immediately (the socket is connected, or the force option is set)
allocates the next id, registers a pending reply under it and races it
against the per-call or default timeout; over any event sequence the
returned promise settles with a reply only if that reply envelope
carries exactly the allocated id; once settled it never settles again
under any further events; and when the timeout fires first the pending
call is deregistered, so a later reply with that id is answered with a
no-handler error and leaves both the state and the settlement
untouched.  A disconnected unforced call is instead spooled and no
timeout race is armed at invocation time (see the counterexample). -/
theorem C1_call_settles_once_with_matching_reply (s : Socket) (m : String)
    (a : List Value) (opts : CallOpts) (evs evs2 : List CallEvent)
    (hnr : opts.noReply = false)
    (hconn : s.isConnected = true ∨ opts.force = true) :
    (call s m a opts).2.2.1 = s.callNo ∧
    (call s m a opts).2.2.2 = CallArm.raceArmed (callDelay opts s.options) ∧
    s.callNo ∈ (call s m a opts).1.replies ∧
    (∀ o p, settledLookup (runEvents (callSys s m a opts) evs).1.settled s.callNo = some o →
       o = Settlement.replied p → p.id = s.callNo) ∧
    (∀ o, settledLookup (runEvents (callSys s m a opts) evs).1.settled s.callNo = some o →
       settledLookup (runEvents (runEvents (callSys s m a opts) evs).1 evs2).1.settled
         s.callNo = some o) ∧
    (∀ y : Sys, y.sock.replies.Nodup →
       settledLookup y.settled s.callNo = none →
       settledLookup (stepEv y (CallEvent.timerFires s.callNo)).1.settled s.callNo
         = some Settlement.timedOut ∧
       s.callNo ∉ (stepEv y (CallEvent.timerFires s.callNo)).1.sock.replies ∧
       (∀ p, p.ptype = "reply" → p.id = s.callNo →
          stepEv (stepEv y (CallEvent.timerFires s.callNo)).1
              (CallEvent.inbound (Frame.text p))
            = ((stepEv y (CallEvent.timerFires s.callNo)).1,
               [Output.emit (Event.packet p),
                Output.emit (Event.error ErrKind.noMethodHandler)]))) := by
  have harm : (call s m a opts).2.2.1 = s.callNo ∧
      (call s m a opts).2.2.2 = CallArm.raceArmed (callDelay opts s.options) ∧
      s.callNo ∈ (call s m a opts).1.replies := by
    rcases hconn with h | h
    · have h2 : (s.status == CONNECTED) = true := by
        simpa [Socket.isConnected] using h
      refine ⟨?_, ?_, ?_⟩ <;> simp [call, send, Socket.isConnected, h2, hnr]
    · refine ⟨?_, ?_, ?_⟩ <;> simp [call, send, h, hnr]
  refine ⟨harm.1, harm.2.1, harm.2.2, ?_, ?_, ?_⟩
  · intro o p hl hop
    have hm := runEvents_repliedIdsMatch evs (callSys s m a opts) repliedIdsMatch_nil
    exact hm _ (settledLookup_mem hl) p hop
  · intro o hl
    exact runEvents_settled_stable evs2 _ hl
  · intro y hnodup hnone
    have hs : (settledLookup y.settled s.callNo).isSome = false := by
      rw [hnone]; rfl
    have hsettled : (stepEv y (CallEvent.timerFires s.callNo)).1.settled
        = y.settled ++ [(s.callNo, Settlement.timedOut)] := by
      simp [stepEv, hs]
    have hrepl : (stepEv y (CallEvent.timerFires s.callNo)).1.sock.replies
        = y.sock.replies.erase s.callNo := by
      simp [stepEv, hs]
    refine ⟨?_, ?_, ?_⟩
    · rw [hsettled]
      exact settledLookup_append_of_none _ hnone
    · rw [hrepl]
      exact hnodup.not_mem_erase
    · intro p hp hpid
      have hmem : p.id ∉ (stepEv y (CallEvent.timerFires s.callNo)).1.sock.replies := by
        rw [hrepl, hpid]
        exact hnodup.not_mem_erase
      exact stepEv_reply_no_handler _ p hp hmem

/-- Witness for C1 at a concrete connected socket. -/
theorem C1_witness :
    (call sockConn "hello" [] {}).2.2.1 = sockConn.callNo :=
  (C1_call_settles_once_with_matching_reply sockConn "hello" [] {} [] []
    rfl (Or.inl (by decide))).1

/-- Counterexample for claim C1 as stated: at a disconnected socket, a
call without noReply is spooled, so its continuation is deferred to the
spool flush and no race against the per-call or default timeout is
armed at invocation time; the promise cannot reject with a timeout
error after the configured delay, and it stays pending until a flush
resolves the spooled send. -/
theorem C1_counterexample :
    sockIdle.isConnected = false ∧
    (call sockIdle "hello" [] {}).2.2.2 = CallArm.deferredToSpool ∧
    (call sockIdle "hello" [] {}).2.2.2
      ≠ CallArm.raceArmed (callDelay {} sockIdle.options) := by
  decide

end BeamClient
